import Mathlib

/-!
Shallow embedding of the KING-VA/CS-256 IR optimizer (basic blocks, CFG,
dominators, SSA, LVN, DCE, LICM, alias analysis, dead-store elimination),
translated from the Python sources under src/, together with theorems
settling the frozen claims about it.

Python dictionaries are modelled by insertion-ordered association lists
(assignment to an existing key keeps its position, a new key is appended),
Python sets by duplicate-free lists in discovery order, and Python
exceptions by `Except PyErr`.  `while` loops and recursion are given
explicit fuel; every concrete evaluation in the theorems below terminates
well within the supplied fuel.
-/

/-- Python runtime errors that the embedded code can raise. -/
inductive PyErr where
  | keyError (k : String)
  | indexError
  | attributeError (s : String)
  | typeError
  | zeroDivisionError
  | valueError
  | fuel
deriving DecidableEq, Repr

/-- An exact (unnormalized) fraction with positive denominator, standing
in for a Python float; every float arising in these developments is
exactly representable.  Kept unnormalized so that all arithmetic and
comparisons reduce in the kernel. -/
structure PyRat where
  num : Int
  den : Int
deriving DecidableEq, Repr

namespace PyRat

/-- Value equality of fractions (denominators are kept positive). -/
def valEq (x y : PyRat) : Bool := decide (x.num * y.den = y.num * x.den)

/-- Value order on fractions. -/
def valLt (x y : PyRat) : Bool := decide (x.num * y.den < y.num * x.den)

/-- Fraction addition. -/
def add (x y : PyRat) : PyRat := ⟨x.num * y.den + y.num * x.den, x.den * y.den⟩

/-- Fraction subtraction. -/
def sub (x y : PyRat) : PyRat := ⟨x.num * y.den - y.num * x.den, x.den * y.den⟩

/-- Fraction multiplication. -/
def mul (x y : PyRat) : PyRat := ⟨x.num * y.num, x.den * y.den⟩

/-- Fraction division (the caller checks for a zero divisor); the sign is
moved to the numerator to keep the denominator positive. -/
def div (x y : PyRat) : PyRat :=
  let n := x.num * y.den
  let d := x.den * y.num
  if d < 0 then ⟨-n, -d⟩ else ⟨n, d⟩

end PyRat

/-- Python scalar values as they occur in instruction `value` fields and
LVN tables: integers, booleans, strings, and floats. -/
inductive PyVal where
  | int (n : Int)
  | bool (b : Bool)
  | str (s : String)
  | float (q : PyRat)
deriving DecidableEq, Repr

namespace PyVal

/-- Numeric interpretation used by Python `==`, `<` and arithmetic:
`True == 1`, `False == 0`, floats compare by value. -/
def toNum? : PyVal → Option PyRat
  | .int n => some ⟨n, 1⟩
  | .bool b => some ⟨if b then 1 else 0, 1⟩
  | .float q => some q
  | .str _ => none

/-- Python `==` on scalar values (numeric cross-type equality included). -/
def pyEq (a b : PyVal) : Bool :=
  match a.toNum?, b.toNum? with
  | some x, some y => x.valEq y
  | _, _ =>
    match a, b with
    | .str s, .str t => s = t
    | _, _ => false

/-- Python `<` on scalar values; comparing a string with a number raises
`TypeError`. -/
def pyLt : PyVal → PyVal → Except PyErr Bool
  | a, b =>
    match a.toNum?, b.toNum? with
    | some x, some y => pure (x.valLt y)
    | _, _ =>
      match a, b with
      | .str s, .str t => pure (decide (s < t))
      | _, _ => throw .typeError

/-- Python truthiness of a scalar value. -/
def truthy : PyVal → Bool
  | .int n => n ≠ 0
  | .bool b => b
  | .str s => s ≠ ""
  | .float q => q.num ≠ 0

end PyVal

/-- Python list equality on scalar tuples (elementwise Python `==`). -/
def pyListEq : List PyVal → List PyVal → Bool
  | [], [] => true
  | a :: as2, b :: bs => a.pyEq b && pyListEq as2 bs
  | _, _ => false

/-- Python `sorted` on a list of scalars (insertion sort with Python `<`;
raises `TypeError` on incomparable elements, as Python does). -/
def pySortInsert (x : PyVal) : List PyVal → Except PyErr (List PyVal)
  | [] => pure [x]
  | y :: ys => do
    if ← x.pyLt y then
      pure (x :: y :: ys)
    else do
      pure (y :: (← pySortInsert x ys))

/-- Python `sorted` over scalar lists. -/
def pySorted : List PyVal → Except PyErr (List PyVal)
  | [] => pure []
  | x :: xs => do pySortInsert x (← pySorted xs)

/-- Lookup in an insertion-ordered association list (Python `d[k]` when the
key is present, `None` otherwise). -/
def alist_find? {κ α : Type} [DecidableEq κ] : List (κ × α) → κ → Option α
  | [], _ => none
  | (k2, v) :: rest, k => if k2 = k then some v else alist_find? rest k

/-- Python `d[k] = v`: update in place if the key exists, else append. -/
def alist_set {κ α : Type} [DecidableEq κ] : List (κ × α) → κ → α → List (κ × α)
  | [], k, v => [(k, v)]
  | (k2, v2) :: rest, k, v =>
    if k2 = k then (k2, v) :: rest else (k2, v2) :: alist_set rest k v

/-- Python `d.pop(k, None)`: remove the key if present. -/
def alist_erase {κ α : Type} [DecidableEq κ] : List (κ × α) → κ → List (κ × α)
  | [], _ => []
  | (k2, v2) :: rest, k =>
    if k2 = k then rest else (k2, v2) :: alist_erase rest k

/-- Keys of an association list, in insertion order (Python `d.keys()`). -/
def alist_keys {κ α : Type} (m : List (κ × α)) : List κ := m.map Prod.fst

/-- Python `k in d`. -/
def alist_mem {κ α : Type} [DecidableEq κ] (m : List (κ × α)) (k : κ) : Bool :=
  (alist_find? m k).isSome

/-- Python `s.add(x)` on a set modelled as a duplicate-free list in
discovery order. -/
def pyset_add {β : Type} [DecidableEq β] (s : List β) (x : β) : List β :=
  if x ∈ s then s else s ++ [x]

/-- Union of two modelled sets, keeping discovery order. -/
def pyset_union {β : Type} [DecidableEq β] (s t : List β) : List β :=
  t.foldl pyset_add s

/-- Python `==` on sets: extensional equality of the modelled sets. -/
def pyset_eq {β : Type} [DecidableEq β] (s t : List β) : Bool :=
  s.all (fun x => decide (x ∈ t)) && t.all (fun x => decide (x ∈ s))

/-- Intersection of two modelled sets (order of the first operand). -/
def pyset_inter {β : Type} [DecidableEq β] (s t : List β) : List β :=
  s.filter (fun x => decide (x ∈ t))

/-- Intersection of a nonempty family of modelled sets, as in
`set.intersection(*family)`. -/
def pyset_interList {β : Type} [DecidableEq β] (s : List β) : List (List β) → List β
  | [] => s
  | t :: ts => pyset_interList (pyset_inter s t) ts

/-- An IR instruction: a heterogeneous record with optional keys, exactly
as the Python sources treat instruction dictionaries. -/
structure Instr where
  label : Option String := none
  op : Option String := none
  dest : Option String := none
  type : Option String := none
  value : Option PyVal := none
  args : Option (List String) := none
  labels : Option (List String) := none
deriving DecidableEq, Repr

/-- Modelled from the spec: `bril_constants.py` is imported by the sources
but absent from src/; §3 of the spec fixes TERMINATING = {jmp, br, ret}. -/
def TERMINATING_INSTRUCTIONS : List String := ["jmp", "br", "ret"]

/-- Modelled from the spec: `bril_constants.py` is absent from src/; §3
fixes COMMUTATIVE = {add, mul, and, or, eq, ne}. -/
def COMMUTATIVE_OPERATIONS : List String := ["add", "mul", "and", "or", "eq", "ne"]

/-- Modelled from the spec: `bril_constants.py` is absent from src/; §3
fixes SPECIAL = {call, alloc, load, store, free, print, phi}. -/
def SPECIAL_OPERATIONS : List String := ["call", "alloc", "load", "store", "free", "print", "phi"]

/-- A basic block: instruction list plus predecessor/successor label lists
populated by the CFG (`task2/basic_blocks.py`, class `BasicBlock`). -/
structure BasicBlock where
  instructions : List Instr
  pred : List String := []
  succ : List String := []
deriving DecidableEq, Repr

namespace BasicBlock

/-- `BasicBlock.add_predecessor`: append if not already present. -/
def add_predecessor (b : BasicBlock) (t : String) : BasicBlock :=
  if t ∈ b.pred then b else { b with pred := b.pred ++ [t] }

/-- `BasicBlock.add_successor`: append if not already present. -/
def add_successor (b : BasicBlock) (t : String) : BasicBlock :=
  if t ∈ b.succ then b else { b with succ := b.succ ++ [t] }

/-- The generator loop body of `BasicBlock.blocks_generator`: fold over the
instructions carrying the current block and the list of emitted blocks. -/
def blocks_go : List Instr → List Instr → List (List Instr) → List (List Instr)
  | [], cur, acc => if cur.isEmpty then acc else acc ++ [cur]
  | instr :: rest, cur, acc =>
    match instr.op with
    | some o =>
      if o ∈ TERMINATING_INSTRUCTIONS then blocks_go rest [] (acc ++ [cur ++ [instr]])
      else blocks_go rest (cur ++ [instr]) acc
    | none =>
      if cur.isEmpty then blocks_go rest [instr] acc
      else blocks_go rest [instr] (acc ++ [cur])

/-- `BasicBlock.blocks_generator`: split an instruction list at labels and
terminating instructions. -/
def blocks_generator (instructions : List Instr) : List (List Instr) :=
  blocks_go instructions [] []

/-- `BasicBlock.create_blocks_from_function`: wrap each nonempty yielded
chunk into a block with empty pred/succ lists. -/
def create_blocks_from_function (instructions : List Instr) : List BasicBlock :=
  ((blocks_generator instructions).map fun is2 => ({ instructions := is2 } : BasicBlock)).filter
    fun b => !b.instructions.isEmpty

end BasicBlock

/-- Python `set.remove`: raises `KeyError` when the element is absent. -/
def pyset_remove {β : Type} [DecidableEq β] (s : List β) (x : β) : Except PyErr (List β) :=
  if x ∈ s then pure (s.erase x) else throw (.keyError "set.remove")

/-- A node of the dominance tree (`task3/cfg.py`, class `DominanceTree`):
predecessor and successor label lists. -/
structure DomTreeNode where
  pred : List String := []
  succ : List String := []
deriving DecidableEq, Repr

/-- Read a block from the store by its identity index. -/
def store_get (st : List BasicBlock) (i : Nat) : Except PyErr BasicBlock :=
  match st.get? i with
  | some b => pure b
  | none => throw .indexError

/-- Mutate a block in the store in place. -/
def store_modify (st : List BasicBlock) (i : Nat) (f : BasicBlock → BasicBlock) : List BasicBlock :=
  match st.get? i with
  | some b => st.set i (f b)
  | none => st

namespace CFG

def DEFAULT_START_LABEL : String := "start_cfg"

def DEFAULT_END_LABEL : String := "end_cfg"

/-- The key under which `CFG.build_cfg` files a block: its leading label if
present, else the synthetic start label. -/
def block_key (b : BasicBlock) : Except PyErr String :=
  match b.instructions.head? with
  | none => throw .indexError
  | some first =>
    match first.label with
    | some l => pure l
    | none => pure DEFAULT_START_LABEL

/-- First loop of `CFG.build_cfg`: file every block (identified by its
position in the input list) in the cfg map under its key. -/
def build_cfg_keys : List BasicBlock → Nat → List (String × Nat) → Except PyErr (List (String × Nat))
  | [], _, cfg => pure cfg
  | b :: rest, i, cfg => do
    let l ← block_key b
    build_cfg_keys rest (i + 1) (alist_set cfg l i)

/-- The `add_to_successor` lambda of `CFG.build_cfg` (swapped by `reverse`). -/
def add_to_successor (reverse : Bool) (st : List BasicBlock) (i : Nat) (t : String) : List BasicBlock :=
  store_modify st i (fun b => if reverse then b.add_predecessor t else b.add_successor t)

/-- The `add_to_predecessor` lambda of `CFG.build_cfg` (swapped by `reverse`). -/
def add_to_predecessor (reverse : Bool) (st : List BasicBlock) (i : Nat) (t : String) : List BasicBlock :=
  store_modify st i (fun b => if reverse then b.add_successor t else b.add_predecessor t)

/-- Wire one branch target: successor on the source block, predecessor on
the (looked-up) target block; a missing target label raises `KeyError`. -/
def wire_target (reverse : Bool) (cfg : List (String × Nat)) (label : String) (idx : Nat)
    (target : String) (st : List BasicBlock) : Except PyErr (List BasicBlock) := do
  let st := add_to_successor reverse st idx target
  match alist_find? cfg target with
  | none => throw (.keyError target)
  | some tIdx => pure (add_to_predecessor reverse st tIdx label)

/-- Second loop body of `CFG.build_cfg`: wire the successors of one cfg
entry according to its last instruction. -/
def wire_block (reverse : Bool) (nblocks : Nat) (cfg : List (String × Nat)) (label : String)
    (idx : Nat) (st : List BasicBlock) : Except PyErr (List BasicBlock) := do
  let b ← store_get st idx
  match b.instructions.getLast? with
  | none => throw .indexError
  | some last_instr =>
    match last_instr.op with
    | none => throw (.keyError "op")
    | some op =>
      if op = "jmp" then
        match last_instr.labels with
        | none => throw (.keyError "labels")
        | some ls =>
          match ls.head? with
          | none => throw .indexError
          | some target => wire_target reverse cfg label idx target st
      else if op = "br" then
        match last_instr.labels with
        | none => throw (.keyError "labels")
        | some ls => ls.foldlM (fun st2 target => wire_target reverse cfg label idx target st2) st
      else
        if idx + 1 < nblocks then
          let next_label :=
            match cfg.find? (fun kv => kv.2 = idx + 1) with
            | some kv => kv.1
            | none => DEFAULT_END_LABEL
          wire_target reverse cfg label idx next_label st
        else
          pure st

/-- `CFG.build_cfg`: key all blocks, then wire successor/predecessor lists. -/
def build_cfg (basic_blocks : List BasicBlock) (reverse : Bool) :
    Except PyErr (List (String × Nat) × List BasicBlock) := do
  let cfg ← build_cfg_keys basic_blocks 0 []
  let st ← cfg.foldlM (fun st kv => wire_block reverse basic_blocks.length cfg kv.1 kv.2 st)
    basic_blocks
  pure (cfg, st)

/-- The `edges` property: all (label, successor) pairs in discovery order. -/
def edges_of (cfg : List (String × Nat)) (st : List BasicBlock) : List (String × String) :=
  cfg.foldl
    (fun acc kv =>
      match st.get? kv.2 with
      | none => acc
      | some b => b.succ.foldl (fun acc2 s => pyset_add acc2 (kv.1, s)) acc)
    []

/-- One sweep of the iterative dominator computation over all non-start
labels, threading in-place updates; returns the new map and whether any
set changed. -/
def dominators_pass (cfg : List (String × Nat)) (st : List BasicBlock) :
    List (String × List String) → List (String × Nat) → Bool →
    List (String × List String) × Bool
  | doms, [], changed => (doms, changed)
  | doms, (label, idx) :: rest, changed =>
    if label = DEFAULT_START_LABEL then dominators_pass cfg st doms rest changed
    else
      let preds := match st.get? idx with
        | some b => b.pred
        | none => []
      let predecessor_dom := preds.filterMap (fun p => alist_find? doms p)
      let new_dominators :=
        match predecessor_dom with
        | [] => []
        | d :: ds => pyset_interList d ds
      let new_dominators := pyset_add new_dominators label
      if pyset_eq new_dominators ((alist_find? doms label).getD []) then
        dominators_pass cfg st doms rest changed
      else
        dominators_pass cfg st (alist_set doms label new_dominators) rest true

/-- The `while changed` loop of `CFG.compute_dominators`. -/
def dominators_loop (cfg : List (String × Nat)) (st : List BasicBlock) :
    Nat → List (String × List String) → Except PyErr (List (String × List String))
  | 0, _ => throw .fuel
  | fuel + 1, doms =>
    match dominators_pass cfg st doms cfg false with
    | (doms2, true) => dominators_loop cfg st fuel doms2
    | (doms2, false) => pure doms2

/-- `CFG.compute_dominators`: every label starts at the empty set, the
start label seeds itself, then iterate to a fixed point. -/
def compute_dominators (fuel : Nat) (cfg : List (String × Nat)) (st : List BasicBlock) :
    Except PyErr (List (String × List String)) := do
  let doms := cfg.foldl (fun m kv => alist_set m kv.1 []) []
  match alist_find? doms DEFAULT_START_LABEL with
  | none => throw (.keyError DEFAULT_START_LABEL)
  | some s =>
    dominators_loop cfg st fuel
      (alist_set doms DEFAULT_START_LABEL (pyset_add s DEFAULT_START_LABEL))

/-- `CFG.compute_dominance_frontiers`. -/
def compute_dominance_frontiers (cfg : List (String × Nat)) (st : List BasicBlock)
    (doms : List (String × List String)) : List (String × List String) :=
  cfg.foldl
    (fun dfs kv =>
      let label := kv.1
      let dominated := doms.filterMap (fun dv => if label ∈ dv.2 then some dv.1 else none)
      let frontier := dominated.foldl
        (fun fr v =>
          match alist_find? cfg v with
          | none => fr
          | some vIdx =>
            match st.get? vIdx with
            | none => fr
            | some b =>
              b.succ.foldl
                (fun fr2 s => if s ∉ dominated ∨ label = s then pyset_add fr2 s else fr2) fr)
        []
      alist_set dfs label frontier)
    []

/-- `CFG.build_dominance_tree`. -/
def build_dominance_tree (cfg : List (String × Nat))
    (doms : List (String × List String)) : List (String × DomTreeNode) :=
  cfg.foldl
    (fun tree kv =>
      let label := kv.1
      let doms_l := ((alist_find? doms label).getD []).erase label
      let immediate := doms_l.foldl
        (fun acc dom =>
          let dom_set := doms.filterMap (fun dv => if dom ∈ dv.2 then some dv.1 else none)
          if doms_l.all (fun dom2 => dom2 = dom ∨ dom2 ∉ dom_set) then pyset_add acc dom
          else acc)
        []
      immediate.foldl
        (fun tree2 node =>
          let tree2 := if alist_mem tree2 label then tree2 else alist_set tree2 label {}
          let tree2 := if alist_mem tree2 node then tree2 else alist_set tree2 node {}
          let tree2 :=
            match alist_find? tree2 node with
            | some t => alist_set tree2 node { t with succ := t.succ ++ [label] }
            | none => tree2
          match alist_find? tree2 label with
          | some t => alist_set tree2 label { t with pred := t.pred ++ [node] }
          | none => tree2)
        tree)
    []

/-- `CFG.compute_back_edges`: pairs (node, dom) that are also CFG edges. -/
def compute_back_edges (doms : List (String × List String))
    (edges : List (String × String)) : List (String × String) :=
  doms.foldl
    (fun acc dv =>
      dv.2.foldl (fun acc2 dom => if (dv.1, dom) ∈ edges then pyset_add acc2 (dv.1, dom) else acc2)
        acc)
    []

/-- The recursive `is_cyclic` DFS of `CFG.is_reducible`, flattened into a
single fueled function: entering a node adds it to the visited and
recursion-stack sets, then the edge list is scanned; descending into an
unvisited target re-enters with the full edge list; the stack entry is
erased on normal exit (visited persists, and an early `True` returns the
sets as they stand). -/
def is_cyclic_scan (all_edges : List (String × String)) :
    Nat → List (String × String) → String → List String → List String →
    Except PyErr (Bool × List String × List String)
  | 0, _, _, _, _ => throw .fuel
  | _ + 1, [], node, visited, stack => pure (false, visited, stack.erase node)
  | fuel + 1, (s, d) :: rest, node, visited, stack =>
    if s = node then
      if d ∉ visited then do
        let r ← is_cyclic_scan all_edges fuel all_edges d (pyset_add visited d) (pyset_add stack d)
        if r.1 then pure (true, r.2.1, r.2.2)
        else is_cyclic_scan all_edges fuel rest node r.2.1 r.2.2
      else if d ∈ stack then pure (true, visited, stack)
      else is_cyclic_scan all_edges fuel rest node visited stack
    else is_cyclic_scan all_edges fuel rest node visited stack

/-- Entry point of the DFS: mark the node visited and on the stack, then
scan the edges. -/
def is_cyclic (all_edges : List (String × String)) (fuel : Nat) (node : String)
    (visited stack : List String) : Except PyErr (Bool × List String × List String) :=
  is_cyclic_scan all_edges fuel all_edges node (pyset_add visited node) (pyset_add stack node)

/-- `CFG.is_reducible`: remove the back edges and test for a cycle from
the start label. -/
def is_reducible (fuel : Nat) (edges back_edges : List (String × String)) :
    Except PyErr Bool := do
  let cfg_edges ← back_edges.foldlM (fun es e => pyset_remove es e) edges
  let r ← is_cyclic cfg_edges fuel DEFAULT_START_LABEL [] []
  pure (!r.1)

/-- Fixed-point loop of `CFG.get_loop_information`: reverse reachability
from the tail over the residual edges, then add the header. -/
def loop_info_nodes (cfg_edges : List (String × String)) (header : String) :
    Nat → List String → List String → Except PyErr (List String)
  | 0, _, _ => throw .fuel
  | fuel + 1, nodes, new_nodes =>
    if pyset_eq nodes new_nodes then pure (pyset_add nodes header)
    else
      let nodes2 := new_nodes
      let new_nodes2 := nodes2.foldl
        (fun acc n =>
          pyset_union acc (cfg_edges.filterMap (fun e => if e.2 = n then some e.1 else none)))
        new_nodes
      loop_info_nodes cfg_edges header fuel nodes2 new_nodes2

/-- `CFG.get_loop_information`: the loop body (`nodes`) of a back edge. -/
def get_loop_information (fuel : Nat) (edges back_edges : List (String × String))
    (backedge : String × String) : Except PyErr (List String) := do
  let header := backedge.2
  let cfg_edges ← back_edges.foldlM
    (fun es e => do
      let es2 ← if e.2 = header then pyset_remove es e else pure es
      if e.1 = header then pyset_remove es2 e else pure es2)
    edges
  loop_info_nodes cfg_edges header fuel [] [backedge.1]

/-- `CFG.reachable`: iterative DFS over successors. -/
def reachable_go (cfg : List (String × Nat)) (st : List BasicBlock) (dest : String) :
    Nat → List String → List String → Except PyErr Bool
  | 0, _, _ => throw .fuel
  | fuel + 1, stack, visited =>
    match stack.getLast? with
    | none => pure false
    | some node =>
      let stack := stack.dropLast
      if node = dest then pure true
      else do
        let visited := pyset_add visited node
        match alist_find? cfg node with
        | none => throw (.keyError node)
        | some idx => do
          let b ← store_get st idx
          let stack := b.succ.foldl (fun s2 t => if t ∈ visited then s2 else s2 ++ [t]) stack
          reachable_go cfg st dest fuel stack visited

/-- `CFG.reachable source dest`. -/
def reachable (fuel : Nat) (cfg : List (String × Nat)) (st : List BasicBlock)
    (source dest : String) : Except PyErr Bool :=
  reachable_go cfg st dest fuel [source] []

/-- `CFG.instructions_from_cfg` (debug off): concatenate block instruction
lists in cfg insertion order. -/
def instructions_from_cfg (cfg : List (String × Nat)) (st : List BasicBlock) : List Instr :=
  cfg.foldl
    (fun acc kv =>
      match st.get? kv.2 with
      | none => acc
      | some b => acc ++ b.instructions)
    []

end CFG

/-- The `CFG` object after `__init__`: the keyed block map, the block
store, and all derived structures. -/
structure CFGData where
  cfg : List (String × Nat)
  store : List BasicBlock
  dominators : List (String × List String)
  dominance_frontiers : List (String × List String)
  dominance_tree : List (String × DomTreeNode)
  back_edges : List (String × String)
  reducible : Bool
deriving DecidableEq, Repr

namespace CFG

/-- `CFG.__init__`: build the graph and compute every derived structure. -/
def init (fuel : Nat) (basic_blocks : List BasicBlock) (reverse : Bool) :
    Except PyErr CFGData := do
  let (cfg, st) ← build_cfg basic_blocks reverse
  let doms ← compute_dominators fuel cfg st
  let dfs := compute_dominance_frontiers cfg st doms
  let tree := build_dominance_tree cfg doms
  let edges := edges_of cfg st
  let bes := compute_back_edges doms edges
  let red ← is_reducible fuel edges bes
  pure { cfg := cfg, store := st, dominators := doms, dominance_frontiers := dfs,
         dominance_tree := tree, back_edges := bes, reducible := red }

/-- `CFG.create_cfg_from_function`: blocks from the instruction list, then
`CFG.__init__`. -/
def create_cfg_from_function (fuel : Nat) (instructions : List Instr) (reverse : Bool) :
    Except PyErr CFGData :=
  init fuel (BasicBlock.create_blocks_from_function instructions) reverse

end CFG

namespace SSA

/-- Inner loop of `SSA.check_ssa` over one function's instructions: false
iff some destination name is assigned twice. -/
def check_ssa_go : List Instr → List String → Bool
  | [], _ => true
  | i :: rest, assigned =>
    match i.dest with
    | some d => if d ∈ assigned then false else check_ssa_go rest (pyset_add assigned d)
    | none => check_ssa_go rest assigned

/-- `SSA.check_ssa` restricted to a single function's instruction list. -/
def check_ssa (instrs : List Instr) : Bool :=
  check_ssa_go instrs []

/-- Result record of `SSA.get_defs_uses_types_inputs`. -/
structure DefsUses where
  defs : List (String × List String)
  types : List (String × String)
  uses : List (String × List String)
  input_variables : List (String × Bool)
deriving DecidableEq, Repr

/-- Per-instruction step of `SSA.get_defs_uses_types_inputs`. -/
def defs_uses_step (label : String) (du : DefsUses) (instr : Instr) : Except PyErr DefsUses := do
  let du ←
    match instr.args with
    | none => pure du
    | some as2 =>
      pure (as2.foldl
        (fun du2 arg =>
          let uses2 := alist_set du2.uses arg (pyset_add ((alist_find? du2.uses arg).getD []) label)
          let inputs2 := if alist_mem du2.input_variables arg then du2.input_variables
            else alist_set du2.input_variables arg true
          { du2 with uses := uses2, input_variables := inputs2 })
        du)
  match instr.dest with
  | none => pure du
  | some d =>
    match instr.type with
    | none => throw (.keyError "type")
    | some ty =>
      let defs2 := alist_set du.defs d (pyset_add ((alist_find? du.defs d).getD []) label)
      let inputs2 := if alist_mem du.input_variables d then du.input_variables
        else alist_set du.input_variables d false
      pure { du with defs := defs2, types := alist_set du.types d ty, input_variables := inputs2 }

/-- `SSA.get_defs_uses_types_inputs`: defs, types, uses and the
used-before-defined flags, over all blocks in cfg order. -/
def get_defs_uses_types_inputs (cfg : List (String × Nat)) (st : List BasicBlock) :
    Except PyErr DefsUses :=
  cfg.foldlM
    (fun du kv => do
      let b ← store_get st kv.2
      b.instructions.foldlM (fun du2 i => defs_uses_step kv.1 du2 i) du)
    ⟨[], [], [], []⟩

/-- `SSA.find_phi_blocks`: for each multiply-defined variable, add a phi
requirement at each dominance-frontier block of each defining block (one
pass over a copy of the def set), threading the mutation of `defs`. -/
def find_phi_blocks (dominance_frontier : List (String × List String))
    (defs : List (String × List String)) :
    Except PyErr (List (String × List String) × List (String × List String)) :=
  defs.foldlM
    (fun acc dv => do
      let def_blocks := (alist_find? acc.2 dv.1).getD []
      if def_blocks.length ≤ 1 then pure acc
      else
        def_blocks.foldlM
          (fun acc2 label => do
            let (pb, d2) := acc2
            match alist_find? dominance_frontier label with
            | none => throw (.keyError label)
            | some frontier =>
              pure (frontier.foldl
                (fun acc3 block =>
                  let pb2 := alist_set acc3.1 block
                    (pyset_add ((alist_find? acc3.1 block).getD []) dv.1)
                  let d3 := alist_set acc3.2 dv.1
                    (pyset_add ((alist_find? acc3.2 dv.1).getD []) block)
                  (pb2, d3))
                (pb, d2)))
          acc)
    (([] : List (String × List String)), defs)

/-- The phi bookkeeping record built during renaming (`phi_node_info`). -/
structure PhiInfo where
  dest : String := ""
  labels : List String := []
  args : List String := []
deriving DecidableEq, Repr

/-- Stacks of current SSA names, one per variable. -/
def Stacks : Type := List (String × List String)

/-- The block → variable → `PhiInfo` map accumulated by renaming. -/
def PhiMapping : Type := List (String × List (String × PhiInfo))

/-- Step 1 of `rename_helper`: push a fresh phi destination `v.k` (k the
current stack depth) for every phi variable of the block. -/
def rename_phi_dests (block_name : String) (phi_vars : List String) :
    Stacks → PhiMapping → Except PyErr (Stacks × PhiMapping)
  | stack, mapping =>
    phi_vars.foldlM
      (fun acc v => do
        match alist_find? acc.1 v with
        | none => throw (.keyError v)
        | some l =>
          let new_dest := v ++ "." ++ toString l.length
          let stack2 := alist_set acc.1 v (l ++ [new_dest])
          let entry := (alist_find? acc.2 block_name).getD []
          let info := (alist_find? entry v).getD ({} : PhiInfo)
          let entry2 := alist_set entry v { info with dest := new_dest }
          pure (stack2, alist_set acc.2 block_name entry2))
      (stack, mapping)

/-- Step 2 of `rename_helper`: rewrite the arguments of one instruction
from the tops of the stacks and rename its destination (parameters, i.e.
used-before-defined variables, keep their names). -/
def rename_instr (input_variables : List (String × Bool)) (stack : Stacks) (instr : Instr) :
    Except PyErr (Stacks × Instr) := do
  let instr :=
    match instr.args with
    | none => instr
    | some as2 =>
      { instr with args := some (as2.map (fun a =>
          match alist_find? stack a with
          | some (x :: xs) => (x :: xs).getLast (by simp)
          | _ => a)) }
  match instr.dest with
  | none => pure (stack, instr)
  | some d =>
    if (alist_find? input_variables d).getD false then pure (stack, instr)
    else
      match alist_find? stack d with
      | none => throw (.keyError d)
      | some l =>
        let new_dest := d ++ "." ++ toString l.length
        pure (alist_set stack d (l ++ [new_dest]), { instr with dest := some new_dest })

/-- Step 3 of `rename_helper`: for each successor with phis, append the
current name (or `undef`) and this block's label to the phi record. -/
def rename_succ_phis (block_name : String) (defs : List (String × List String))
    (phi_blocks : List (String × List String)) (succs : List String)
    (stack : Stacks) (mapping : PhiMapping) : Except PyErr PhiMapping :=
  succs.foldlM
    (fun mapping2 s =>
      match alist_find? phi_blocks s with
      | none => pure mapping2
      | some phi_vars =>
        phi_vars.foldlM
          (fun mapping3 v => do
            let new_arg ←
              if block_name ∈ (alist_find? defs v).getD [] then
                match alist_find? stack v with
                | some (x :: xs) => pure ((x :: xs).getLast (by simp))
                | _ => throw .indexError
              else pure "undef"
            let entry := (alist_find? mapping3 s).getD []
            let info := (alist_find? entry v).getD ({} : PhiInfo)
            let info2 := { info with args := info.args ++ [new_arg], labels := info.labels ++ [block_name] }
            pure (alist_set mapping3 s (alist_set entry v info2)))
          mapping2)
    mapping

/-- `rename_helper`: process a block, then recurse into its dominator-tree
children; the stacks are restored on exit (children receive the current
stacks and their changes do not escape). -/
def rename_helper (cfg : List (String × Nat)) (phi_blocks : List (String × List String))
    (defs : List (String × List String)) (dominance_tree : List (String × DomTreeNode))
    (input_variables : List (String × Bool)) :
    Nat → String → Stacks → PhiMapping → List BasicBlock →
    Except PyErr (PhiMapping × List BasicBlock)
  | 0, _, _, _, _ => throw .fuel
  | fuel + 1, block_name, stack, mapping, st => do
    let idx ←
      match alist_find? cfg block_name with
      | none => throw (.keyError block_name)
      | some i => pure i
    let b ← store_get st idx
    let (stack, mapping) ←
      match alist_find? phi_blocks block_name with
      | none => pure (stack, mapping)
      | some phi_vars => rename_phi_dests block_name phi_vars stack mapping
    let (stack, newInstrs) ←
      b.instructions.foldlM
        (fun acc i => do
          let (s2, i2) ← rename_instr input_variables acc.1 i
          pure (s2, acc.2 ++ [i2]))
        (stack, ([] : List Instr))
    let st := store_modify st idx (fun b2 => { b2 with instructions := newInstrs })
    let mapping ← rename_succ_phis block_name defs phi_blocks b.succ stack mapping
    let children ←
      match alist_find? dominance_tree block_name with
      | none => throw (.keyError block_name)
      | some t => pure t.succ
    children.foldlM
      (fun acc child =>
        rename_helper cfg phi_blocks defs dominance_tree input_variables fuel child stack
          acc.1 acc.2)
      (mapping, st)

/-- `SSA.rename_variables`: initialize the stacks and the phi mapping and
run `rename_helper` from the first cfg key. -/
def rename_variables (fuel : Nat) (c : CFGData) (phi_blocks : List (String × List String))
    (defs : List (String × List String)) (input_variables : List (String × Bool)) :
    Except PyErr (PhiMapping × List BasicBlock) := do
  let stack : Stacks := defs.map (fun dv => (dv.1, []))
  let mapping : PhiMapping :=
    (c.cfg.filterMap (fun kv =>
      if alist_mem phi_blocks kv.1 then some kv.1 else none)).map
      (fun block => (block, ((alist_find? phi_blocks block).getD []).map (fun v => (v, ({} : PhiInfo)))))
  match c.cfg.head? with
  | none => throw .indexError
  | some kv =>
    rename_helper c.cfg phi_blocks defs c.dominance_tree input_variables fuel kv.1 stack
      mapping c.store

/-- `SSA.insert_phi_nodes`: build each phi instruction and insert it at the
front of its block (successive inserts at index 0). -/
def insert_phi_nodes (cfg : List (String × Nat)) (types : List (String × String))
    (mapping : PhiMapping) (st : List BasicBlock) : Except PyErr (List BasicBlock) :=
  mapping.foldlM
    (fun st2 bm =>
      bm.2.foldlM
        (fun st3 vp => do
          let ty ←
            match alist_find? types vp.1 with
            | none => throw (.keyError vp.1)
            | some ty => pure ty
          let phi_instr : Instr :=
            { op := some "phi", dest := some vp.2.dest, type := some ty,
              labels := some vp.2.labels, args := some vp.2.args }
          match alist_find? cfg bm.1 with
          | none => throw (.keyError bm.1)
          | some idx =>
            pure (store_modify st3 idx (fun b => { b with instructions := phi_instr :: b.instructions })))
        st2)
    st

/-- `SSA.cfg_to_ssa`: phi placement, renaming, and phi insertion; returns
the mutated block store. -/
def cfg_to_ssa (fuel : Nat) (c : CFGData) : Except PyErr (List BasicBlock) := do
  let du ← get_defs_uses_types_inputs c.cfg c.store
  let (phi_blocks, defs) ← find_phi_blocks c.dominance_frontiers du.defs
  let (mapping, st) ← rename_variables fuel c phi_blocks defs du.input_variables
  insert_phi_nodes c.cfg du.types mapping st

end SSA

namespace LocalValueNumbering

/-- Python `x + y` on scalar values: ints (bools count as ints) add to an
int, floats give floats, strings concatenate, mixed raises `TypeError`. -/
def pyAdd (a b : PyVal) : Except PyErr PyVal :=
  match a, b with
  | .str s, .str t => pure (.str (s ++ t))
  | _, _ =>
    match a.toNum?, b.toNum?, a, b with
    | some x, some y, .float _, _ => pure (.float (x.add y))
    | some x, some y, _, .float _ => pure (.float (x.add y))
    | some x, some y, _, _ => pure (.int (x.add y).num)
    | _, _, _, _ => throw .typeError

/-- Python `x - y` on scalar values (numeric only here). -/
def pySub (a b : PyVal) : Except PyErr PyVal :=
  match a.toNum?, b.toNum?, a, b with
  | some x, some y, .float _, _ => pure (.float (x.sub y))
  | some x, some y, _, .float _ => pure (.float (x.sub y))
  | some x, some y, _, _ => pure (.int (x.sub y).num)
  | _, _, _, _ => throw .typeError

/-- Python `x * y` on scalar values (numeric only here). -/
def pyMul (a b : PyVal) : Except PyErr PyVal :=
  match a.toNum?, b.toNum?, a, b with
  | some x, some y, .float _, _ => pure (.float (x.mul y))
  | some x, some y, _, .float _ => pure (.float (x.mul y))
  | some x, some y, _, _ => pure (.int (x.mul y).num)
  | _, _, _, _ => throw .typeError

/-- Python `x / y`: true division producing a float; division by zero
raises `ZeroDivisionError`. -/
def pyDiv (a b : PyVal) : Except PyErr PyVal :=
  match a.toNum?, b.toNum? with
  | some x, some y =>
    if y.num = 0 then throw .zeroDivisionError else pure (.float (x.div y))
  | _, _ => throw .typeError

/-- Python `x <= y` (numbers or strings; mixed raises `TypeError`). -/
def pyLe (a b : PyVal) : Except PyErr Bool := do
  let lt ← a.pyLt b
  pure (lt || a.pyEq b)

/-- `LocalValueNumbering.str_of_bool` applied to the truthiness of a
value: the strings `"true"` / `"false"`. -/
def str_of_bool (b : Bool) : PyVal :=
  .str (if b then "true" else "false")

/-- Index a Python list of value tuples (`self.tuples[num]`); a non-int or
out-of-range value number raises (negative indices do not occur). -/
def tuples_at (tuples : List (List PyVal)) (num : PyVal) : Except PyErr (List PyVal) :=
  match num with
  | .int n =>
    if h : 0 ≤ n ∧ n.toNat < tuples.length then pure (tuples.get ⟨n.toNat, h.2⟩)
    else throw .indexError
  | _ => throw .typeError

/-- First component of a value tuple (`tuple[0]`). -/
def tuple_fst (t : List PyVal) : Except PyErr PyVal :=
  match t.head? with
  | some v => pure v
  | none => throw .indexError

/-- Second component of a value tuple (`tuple[1]`). -/
def tuple_snd (t : List PyVal) : Except PyErr PyVal :=
  match t.get? 1 with
  | some v => pure v
  | none => throw .indexError

/-- The `operations` table of `LocalValueNumbering.compute`, applied to
the constant operand values (binary except `not`); `div` is Python true
division and raises on a zero divisor. -/
def apply_operation (op : String) (vals : List PyVal) : Except PyErr (Option PyVal) := do
  if op = "not" then
    match vals.head? with
    | none => throw .indexError
    | some x => pure (some (str_of_bool (!x.truthy)))
  else
    match vals with
    | [x, y] =>
      if op = "eq" then pure (some (str_of_bool (x.pyEq y)))
      else if op = "ne" then pure (some (str_of_bool (!x.pyEq y)))
      else if op = "le" then pure (some (str_of_bool (← pyLe x y)))
      else if op = "lt" then pure (some (str_of_bool (← x.pyLt y)))
      else if op = "gt" then pure (some (str_of_bool (← y.pyLt x)))
      else if op = "ge" then pure (some (str_of_bool (← pyLe y x)))
      else if op = "and" then pure (some (str_of_bool (x.truthy && y.truthy)))
      else if op = "or" then pure (some (str_of_bool (x.truthy || y.truthy)))
      else if op = "add" then pure (some (← pyAdd x y))
      else if op = "mul" then pure (some (← pyMul x y))
      else if op = "sub" then pure (some (← pySub x y))
      else if op = "div" then pure (some (← pyDiv x y))
      else pure none
    | _ =>
      if op ∈ ["eq", "ne", "le", "lt", "gt", "ge", "and", "or", "add", "mul", "sub", "div"] then
        throw .typeError
      else pure none

/-- Result type tag chosen by `compute` for a folded constant. -/
def fold_type (op : String) : String :=
  if op ∈ ["ne", "eq", "le", "lt", "gt", "ge", "not", "and", "or"] then "bool" else "int"

/-- The `elif any_const_operands` branch of `compute`: short-circuit `and`
with a false operand and `or` with a true operand. -/
def compute_any_const (env : List (String × PyVal)) (tuples : List (List PyVal))
    (instr : Instr) (dest op : String) (args2 : List String) : Except PyErr Instr := do
  if op = "and" then do
    let hit ← args2.foldlM
      (fun acc a =>
        match acc with
        | true => pure true
        | false =>
          match alist_find? env a with
          | none => pure false
          | some n => do
            let v ← tuple_snd (← tuples_at tuples n)
            pure (v.pyEq (.bool false)))
      false
    if hit then
      pure { op := some "const", dest := some dest, value := some (str_of_bool false),
             type := some "bool" }
    else pure instr
  else if op = "or" then do
    let hit ← args2.foldlM
      (fun acc a =>
        match acc with
        | true => pure true
        | false =>
          match alist_find? env a with
          | none => pure false
          | some n => do
            let v ← tuple_snd (← tuples_at tuples n)
            pure (v.pyEq (.bool true)))
      false
    if hit then
      pure { op := some "const", dest := some dest, value := some (str_of_bool true),
             type := some "bool" }
    else pure instr
  else pure instr

/-- The syntactic-idempotence branch of `compute`: comparisons whose args
are all the same name fold to a constant boolean. -/
def compute_idempotent (instr : Instr) (dest op : String) : Except PyErr Instr :=
  let constant_values : List (String × Bool) :=
    [("ne", false), ("eq", true), ("le", true), ("lt", false), ("gt", false), ("ge", true)]
  match alist_find? constant_values op with
  | some b =>
    pure { op := some "const", dest := some dest, value := some (str_of_bool b),
           type := some "bool" }
  | none => pure instr

/-- `LocalValueNumbering.compute`: attempt constant folding of one
instruction against the current environment and tuple table. -/
def compute (env : List (String × PyVal)) (tuples : List (List PyVal)) (instr : Instr) :
    Except PyErr Instr := do
  match instr.dest, instr.op with
  | none, _ => pure instr
  | _, none => pure instr
  | some dest, some op =>
    if op ∈ SPECIAL_OPERATIONS then pure instr
    else
      match instr.args with
      | none => pure instr
      | some args2 =>
        if args2.all (fun a => alist_mem env a) then
          if op = "id" then pure instr
          else do
            let arg_nums ← pySorted (args2.map (fun a => (alist_find? env a).getD (.int 0)))
            if arg_nums.any (fun n => match n with | .str _ => true | _ => false) then
              pure instr
            else do
              let const_operands ← arg_nums.mapM (fun n => do
                let t ← tuples_at tuples n
                let f ← tuple_fst t
                pure (f.pyEq (.str "const")))
              if const_operands.all (fun b => b) then do
                let vals ← arg_nums.mapM (fun n => do tuple_snd (← tuples_at tuples n))
                match ← apply_operation op vals with
                | some v =>
                  pure { op := some "const", dest := some dest, value := some v,
                         type := some (fold_type op) }
                | none => pure instr
              else if const_operands.any (fun b => b) then
                compute_any_const env tuples instr dest op args2
              else if (args2.eraseDups).length = 1 then
                compute_idempotent instr dest op
              else pure instr
        else do
          let local_args := args2.filterMap (fun a => alist_find? env a)
          let any_const ← local_args.foldlM
            (fun acc n => do
              if acc then pure true
              else do
                let t ← tuples_at tuples n
                let f ← tuple_fst t
                pure (f.pyEq (.str "const")))
            false
          if any_const then compute_any_const env tuples instr dest op args2
          else if (args2.eraseDups).length = 1 then compute_idempotent instr dest op
          else pure instr


/-- An entry of the LVN table: canonical tuple and representative name. -/
structure TableEntry where
  value_tuple : List PyVal
  name : String
deriving DecidableEq, Repr

/-- The mutable state of one `LocalValueNumbering` object. -/
structure LVNState where
  env : List (String × PyVal) := []
  table : List (PyVal × TableEntry) := []
  tuples : List (List PyVal) := []
  unique_id : Nat := 0
deriving DecidableEq, Repr

/-- Dictionary lookup in the LVN table (keys are value numbers, compared
with Python `==`). -/
def table_find? (table : List (PyVal × TableEntry)) (k : PyVal) : Option TableEntry :=
  (table.find? (fun kv => kv.1.pyEq k)).map Prod.snd

/-- Dictionary assignment in the LVN table. -/
def table_set : List (PyVal × TableEntry) → PyVal → TableEntry → List (PyVal × TableEntry)
  | [], k, v => [(k, v)]
  | kv :: rest, k, v => if kv.1.pyEq k then (k, v) :: rest else kv :: table_set rest k v

/-- Python `value_tuple in self.tuples` / `self.tuples.index(value_tuple)`:
the first index of an equal tuple. -/
def tuples_index_go (t : List PyVal) : List (List PyVal) → Nat → Option Nat
  | [], _ => none
  | u :: rest, i => if pyListEq u t then some i else tuples_index_go t rest (i + 1)

/-- First index of a value tuple in the tuple list, if present. -/
def tuples_index? (tuples : List (List PyVal)) (t : List PyVal) : Option Nat :=
  tuples_index_go t tuples 0

/-- `LocalValueNumbering.is_overwritten`: the destination is assigned again
in the remaining instructions. -/
def is_overwritten (dest : String) (instrs : List Instr) : Bool :=
  instrs.any (fun i => i.dest = some dest)

/-- Final environment update of the `process_block` loop body:
`env[old_name or dest] = num`, then emit the instruction. -/
def process_emit (st : LVNState) (instr : Instr) (num : PyVal) (old_name : Option String)
    (new_block : List Instr) : LVNState × List Instr :=
  match instr.dest with
  | none => (st, new_block ++ [instr])
  | some d =>
    match old_name with
    | some o => ({ st with env := alist_set st.env o num }, new_block ++ [instr])
    | none => ({ st with env := alist_set st.env d num }, new_block ++ [instr])

/-- Loop body of `LocalValueNumbering.process_block` for one instruction at
index `idx` of the original block. -/
def process_instr (block : List Instr) (idx : Nat) (st : LVNState) (instr0 : Instr)
    (new_block : List Instr) : Except PyErr (LVNState × List Instr) := do
  let instr ← compute st.env st.tuples instr0
  match instr.op with
  | none => pure (st, new_block ++ [instr])
  | some op =>
    if op = "nop" ∨ instr.labels.isSome ∨ op ∈ TERMINATING_INSTRUCTIONS ∨
        op ∈ SPECIAL_OPERATIONS then
      pure (st, new_block ++ [instr])
    else do
      let discard_id ←
        if op = "id" then
          match instr.args with
          | none => throw (.keyError "args")
          | some as2 =>
            match as2.head? with
            | none => throw .indexError
            | some a =>
              match instr.dest with
              | none => throw (.keyError "dest")
              | some d => pure (decide (a = d))
        else pure false
      if discard_id then pure (st, new_block)
      else do
        let (value_tuple, instr) ←
          match instr.args with
          | some args2 =>
            if args2.all (fun a => alist_mem st.env a) then do
              let arg_nums ← pySorted (args2.map (fun a => (alist_find? st.env a).getD (.int 0)))
              let new_args ← args2.mapM (fun a =>
                match table_find? st.table ((alist_find? st.env a).getD (.int 0)) with
                | some e => pure e.name
                | none => throw (.keyError a))
              pure ((PyVal.str op :: arg_nums, { instr with args := some new_args }))
            else
              pure ((PyVal.str op :: args2.map PyVal.str, instr))
          | none =>
            match instr.value with
            | none => throw (.keyError "value")
            | some v => pure (([PyVal.str op, v], instr))
        let value_tuple ←
          if op ∈ COMMUTATIVE_OPERATIONS then do
            pure (PyVal.str op :: (← pySorted value_tuple.tail))
          else pure value_tuple
        match tuples_index? st.tuples value_tuple with
        | some num => do
          let entry ←
            match table_find? st.table (.int num) with
            | some e => pure e
            | none => throw (.keyError "table")
          let f ← tuple_fst entry.value_tuple
          let instr :=
            if !f.pyEq (.str "const") then
              { instr with op := some "id", args := some [entry.name] }
            else instr
          pure (process_emit st instr (.int num) none new_block)
        | none =>
          if op = "id" then do
            let num ← tuple_snd value_tuple
            let instr ←
              match table_find? st.table num with
              | some e => do
                let f ← tuple_fst e.value_tuple
                if f.pyEq (.str "const") then do
                  let v ← tuple_snd e.value_tuple
                  pure { instr with op := some "const", value := some v }
                else pure instr
              | none => pure instr
            pure (process_emit st instr num none new_block)
          else
            match instr.dest with
            | none => pure (st, new_block ++ [instr])
            | some d => do
              let tuples2 := st.tuples ++ [value_tuple]
              let num := tuples2.length - 1
              let overwritten := is_overwritten d (block.drop (idx + 1))
              let name := if !overwritten then d else "lvn." ++ toString st.unique_id
              let (uid2, old_name, instr2) :=
                if name ≠ d then (st.unique_id + 1, some d, { instr with dest := some name })
                else (st.unique_id, none, instr)
              let st2 := { st with tuples := tuples2, unique_id := uid2, table := table_set st.table (.int num) ⟨value_tuple, name⟩ }
              pure (process_emit st2 instr2 (.int num) old_name new_block)

/-- Recursion over the block for `process_block`. -/
def process_go (block : List Instr) : List Instr → Nat → LVNState → List Instr →
    Except PyErr (LVNState × List Instr)
  | [], _, st, new_block => pure (st, new_block)
  | i :: rest, idx, st, new_block => do
    let (st2, nb2) ← process_instr block idx st i new_block
    process_go block rest (idx + 1) st2 nb2

/-- `LocalValueNumbering.process_block`: run LVN over one basic block with
fresh env/table/tuples (a fresh object, so `unique_id` starts at 0). -/
def process_block (block : List Instr) : Except PyErr (List Instr) := do
  let r ← process_go block block 0 {} []
  pure r.2

end LocalValueNumbering

namespace DCE

/-- The per-block walk of `local_dead_code` (`task3/dce.py`): drop each
argument from `last_def`, and on a reassignment of a tracked destination
call `block.pop(...)` — an attribute `BasicBlock` does not have, so Python
raises `AttributeError` at that point. -/
def local_dead_code_block : List Instr → Nat → List (String × Nat) → Except PyErr Unit
  | [], _, _ => pure ()
  | instr :: rest, i, last_def => do
    let last_def := (instr.args.getD []).foldl (fun m a => alist_erase m a) last_def
    match instr.dest with
    | none => local_dead_code_block rest (i + 1) last_def
    | some d =>
      if alist_mem last_def d then throw (.attributeError "pop")
      else local_dead_code_block rest (i + 1) (alist_set last_def d i)

/-- `local_dead_code`: form blocks, run the reassignment walk on each, and
reassemble the function's instructions (nothing is ever removed: the
removal path raises before it can delete anything). -/
def local_dead_code (instrs : List Instr) : Except PyErr (List Instr) := do
  let blocks := BasicBlock.create_blocks_from_function instrs
  blocks.forM (fun b => local_dead_code_block b.instructions 0 [])
  pure (blocks.foldl (fun acc b => acc ++ b.instructions) [])

end DCE

namespace LICM

/-- `variable_use_def_blocks` (`task3/licm.py`): use sites as sets of
(block, index) pairs, def sites as the last (block, index) pair. -/
def variable_use_def_blocks (cfg : List (String × Nat)) (st : List BasicBlock) :
    Except PyErr (List (String × List (String × Nat)) × List (String × (String × Nat))) :=
  cfg.foldlM
    (fun acc kv => do
      let b ← store_get st kv.2
      let r := b.instructions.foldl
        (fun acc2 instr =>
          let (ub, db, i) := acc2
          let ub := (instr.args.getD []).foldl
            (fun ub2 arg => alist_set ub2 arg (pyset_add ((alist_find? ub2 arg).getD []) (kv.1, i)))
            ub
          let db :=
            match instr.dest with
            | some d => alist_set db d (kv.1, i)
            | none => db
          (ub, db, i + 1))
        (acc.1, acc.2, 0)
      pure (r.1, r.2.1))
    (([] : List (String × List (String × Nat))), ([] : List (String × (String × Nat))))

/-- `instruction_can_error`: free/load/store/phi can error; for `div` the
source compares `instr['args'][1]` — a variable name, i.e. a string — with
the integer 0, which in Python is always `False`, so no `div` is ever
flagged. -/
def instruction_can_error (instr : Instr) : Except PyErr Bool :=
  match instr.op with
  | none => pure false
  | some op =>
    if op ∈ ["free", "load", "store", "phi"] then pure true
    else if op = "div" then
      match instr.args with
      | none => throw (.keyError "args")
      | some as2 =>
        match as2.get? 1 with
        | none => throw .indexError
        | some _ => pure false
    else pure false

/-- `instruction_is_terminating`. -/
def instruction_is_terminating (instr : Instr) : Bool :=
  match instr.op with
  | none => false
  | some op => op ∈ TERMINATING_INSTRUCTIONS

/-- One sweep of the loop-invariance detection: an instruction with args is
invariant if every arg is defined outside the loop nodes, or if every arg
is defined by an instruction already in the (growing) invariant set. -/
def invariant_pass (cfg : List (String × Nat)) (def_block : List (String × (String × Nat)))
    (nodes : List String) (st : List BasicBlock) (inv : List (String × Nat)) :
    Except PyErr (List (String × Nat)) :=
  nodes.foldlM
    (fun inv2 block_name => do
      let idx ←
        match alist_find? cfg block_name with
        | none => throw (.keyError block_name)
        | some i => pure i
      let b ← store_get st idx
      let r := b.instructions.foldl
        (fun acc instr =>
          let (inv3, i) := acc
          match instr.args with
          | none => (inv3, i + 1)
          | some args2 =>
            let cond1 := args2.all (fun arg =>
              match alist_find? def_block arg with
              | none => true
              | some db => db.1 ∉ nodes)
            let inv4 := if cond1 then pyset_add inv3 (block_name, i) else inv3
            let cond2 := args2.all (fun arg =>
              match alist_find? def_block arg with
              | none => true
              | some db => db ∈ inv4)
            let inv5 := if cond2 then pyset_add inv4 (block_name, i) else inv4
            (inv5, i + 1))
        (inv2, 0)
      pure r.1)
    inv

/-- The `while True` fixed-point loop of the invariance detection. -/
def invariant_loop (cfg : List (String × Nat)) (def_block : List (String × (String × Nat)))
    (nodes : List String) (st : List BasicBlock) :
    Nat → List (String × Nat) → Except PyErr (List (String × Nat))
  | 0, _ => throw .fuel
  | fuel + 1, inv => do
    let new_inv ← invariant_pass cfg def_block nodes st inv
    if pyset_eq new_inv inv then pure inv
    else invariant_loop cfg def_block nodes st fuel new_inv

/-- Append a hoisted instruction to one preheader block: before the
terminator if the block ends in one, else at the end. -/
def hoist_into (cfg : List (String × Nat)) (instruction : Instr) (st : List BasicBlock)
    (header_name : String) : Except PyErr (List BasicBlock) := do
  match alist_find? cfg header_name with
  | none => throw (.keyError header_name)
  | some idx => do
    let pb ← store_get st idx
    match pb.instructions.getLast? with
    | none => pure (store_modify st idx (fun b => { b with instructions := b.instructions ++ [instruction] }))
    | some last =>
      if !instruction_is_terminating last then
        pure (store_modify st idx (fun b => { b with instructions := b.instructions ++ [instruction] }))
      else
        pure (store_modify st idx (fun b =>
          { b with instructions := b.instructions.dropLast ++ [instruction, last] }))

/-- The hoisting `while i < len(block.instructions)` walk over one loop
block: skip non-invariant or blocked instructions, move the rest to every
preheader block and delete them here. -/
def hoist_walk (cfg : List (String × Nat)) (doms : List (String × List String))
    (use_block : List (String × List (String × Nat))) (nodes : List String)
    (preheader_blocks : List String) (loop_invariant : List (String × Nat))
    (block_idx : Nat) (block_name : String) :
    Nat → Nat → Nat → List BasicBlock → Except PyErr (List BasicBlock)
  | 0, _, _, _ => throw .fuel
  | fuel + 1, i, og_idx, st => do
    let b ← store_get st block_idx
    match b.instructions.get? i with
    | none => pure st
    | some instruction =>
      if (block_name, og_idx) ∉ loop_invariant then
        hoist_walk cfg doms use_block nodes preheader_blocks loop_invariant block_idx
          block_name fuel (i + 1) (og_idx + 1) st
      else
        match instruction.dest with
        | none =>
          hoist_walk cfg doms use_block nodes preheader_blocks loop_invariant block_idx
            block_name fuel (i + 1) (og_idx + 1) st
        | some dest =>
          if dest = "" then
            hoist_walk cfg doms use_block nodes preheader_blocks loop_invariant block_idx
              block_name fuel (i + 1) (og_idx + 1) st
          else if !alist_mem use_block dest then
            hoist_walk cfg doms use_block nodes preheader_blocks loop_invariant block_idx
              block_name fuel (i + 1) (og_idx + 1) st
          else do
            let uses := (alist_find? use_block dest).getD []
            let non_dominated_uses ← uses.foldlM
              (fun acc u => do
                let (bn, ii) := u
                if block_name ∈ (alist_find? doms bn).getD [] then pure acc
                else do
                  let idx2 ←
                    match alist_find? cfg bn with
                    | none => throw (.keyError bn)
                    | some x => pure x
                  let b2 ← store_get st idx2
                  match b2.instructions.get? ii with
                  | none => throw .indexError
                  | some inst => pure (acc ++ [inst]))
              ([] : List Instr)
            let uses_ok ← do
              if non_dominated_uses.length ≤ 0 then pure true
              else
                non_dominated_uses.foldlM
                  (fun acc inst => do
                    if !acc then pure false
                    else
                      match inst.op with
                      | none => throw (.keyError "op")
                      | some o =>
                        if o ≠ "phi" then pure false
                        else
                          match inst.labels with
                          | none => throw (.keyError "labels")
                          | some ls => pure (ls.all (fun l => l ∈ nodes)))
                  true
            if !uses_ok then
              hoist_walk cfg doms use_block nodes preheader_blocks loop_invariant block_idx
                block_name fuel (i + 1) (og_idx + 1) st
            else do
              let opv ←
                match instruction.op with
                | none => throw (.keyError "op")
                | some o => pure o
              let ce ← instruction_can_error instruction
              if opv ∈ SPECIAL_OPERATIONS ∨ ce then
                hoist_walk cfg doms use_block nodes preheader_blocks loop_invariant block_idx
                  block_name fuel (i + 1) (og_idx + 1) st
              else do
                let st ← preheader_blocks.foldlM
                  (fun st2 hn => hoist_into cfg instruction st2 hn) st
                let st := store_modify st block_idx
                  (fun b2 => { b2 with instructions := b2.instructions.eraseIdx i })
                hoist_walk cfg doms use_block nodes preheader_blocks loop_invariant block_idx
                  block_name fuel i (og_idx + 1) st

/-- Process one back edge of `licm`: skip unreachable tails, compute the
preheader set and loop nodes, find invariant instructions, hoist. -/
def licm_backedge (fuel : Nat) (c : CFGData)
    (use_block : List (String × List (String × Nat)))
    (def_block : List (String × (String × Nat))) (edges : List (String × String))
    (st : List BasicBlock) (be : String × String) : Except PyErr (List BasicBlock) := do
  let (tail, header) := be
  let r ← CFG.reachable fuel c.cfg c.store CFG.DEFAULT_START_LABEL tail
  if !r then pure st
  else do
    let headerIdx ←
      match alist_find? c.cfg header with
      | none => throw (.keyError header)
      | some i => pure i
    let headerBlock ← store_get st headerIdx
    let preheader0 := (alist_keys c.cfg).filter (fun l => l ∈ headerBlock.pred)
    let nodes ← CFG.get_loop_information fuel edges c.back_edges be
    let preheader_blocks := preheader0.filter (fun l => l ∉ nodes)
    let loop_invariant ← invariant_loop c.cfg def_block nodes st fuel []
    nodes.foldlM
      (fun st2 block_name => do
        let idx ←
          match alist_find? c.cfg block_name with
          | none => throw (.keyError block_name)
          | some i => pure i
        hoist_walk c.cfg c.dominators use_block nodes preheader_blocks loop_invariant idx
          block_name fuel 0 0 st2)
      st

/-- `licm`: build the CFG, bail out on trivial or irreducible graphs, and
process every detected back edge in discovery order. -/
def licm (fuel : Nat) (instrs : List Instr) : Except PyErr (List Instr) := do
  let c ← CFG.create_cfg_from_function fuel instrs false
  if c.cfg.length ≤ 1 then pure instrs
  else if !c.reducible then pure instrs
  else do
    let (use_block, def_block) ← variable_use_def_blocks c.cfg c.store
    let edges := CFG.edges_of c.cfg c.store
    let stFinal ← c.back_edges.foldlM
      (fun st2 be => licm_backedge fuel c use_block def_block edges st2 be) c.store
    pure (CFG.instructions_from_cfg c.cfg stFinal)

end LICM

namespace AliasAnalysis

/-- A memory-location token: a fresh integer minted by the analysis, or
the sentinel `"all_mem_locations"`. -/
inductive MemLoc where
  | num (n : Nat)
  | all
deriving DecidableEq, Repr

/-- The string form of the sentinel token, as it appears in alias sets. -/
def ALL_MEM_LOCATIONS : String := "all_mem_locations"

/-- A points-to state: map variable → set of memory-location tokens. -/
def PtState : Type := List (String × List MemLoc)

/-- `AliasAnalysis.merge_fn`: keys are taken from the first input only;
each key's sets are unioned over the inputs that have it. -/
def merge_fn : List PtState → PtState
  | [] => []
  | first :: rest =>
    (alist_keys first).foldl
      (fun out key =>
        let vals := (first :: rest).filterMap (fun inp => alist_find? inp key)
        alist_set out key (vals.foldl pyset_union []))
      []

/-- The `add_to_set` helper of `AliasAnalysis.transfer_fn`. -/
def add_to_set (dest : String) (value : List MemLoc) (state : PtState) : PtState :=
  match alist_find? state dest with
  | some cur => alist_set state dest (value.foldl pyset_add cur)
  | none => alist_set state dest (value.foldl pyset_add [])

/-- One instruction step of `AliasAnalysis.transfer_fn`, threading the
`unique_loc_num` counter (incremented before use by
`get_unique_loc_num`). -/
def alias_step (state : PtState) (counter : Nat) (instr : Instr) :
    Except PyErr (PtState × Nat) := do
  match instr.op with
  | none => pure (state, counter)
  | some op =>
    if op = "alloc" then
      match instr.dest with
      | none => throw (.keyError "dest")
      | some d => pure (add_to_set d [.num (counter + 1)] state, counter + 1)
    else if op = "id" ∨ op = "ptradd" then
      match instr.args with
      | none => throw (.keyError "args")
      | some as2 =>
        match as2.head? with
        | none => throw .indexError
        | some a =>
          match instr.dest with
          | none => throw (.keyError "dest")
          | some d =>
            match alist_find? state a with
            | some vs => pure (add_to_set d vs state, counter)
            | none => pure (state, counter)
    else if op = "load" then
      match instr.args with
      | none => throw (.keyError "args")
      | some _ =>
        match instr.dest with
        | none => throw (.keyError "dest")
        | some d => pure (add_to_set d [.all] state, counter)
    else pure (state, counter)

/-- `AliasAnalysis.transfer_fn` over one block. -/
def transfer_fn (block : BasicBlock) (inputs : PtState) (counter : Nat) :
    Except PyErr (PtState × Nat) :=
  block.instructions.foldlM (fun acc i => alias_step acc.1 acc.2 i) (inputs, counter)

/-- The result of `AliasAnalysis.worklist_algorithm`: in/out maps, the
out-state of the last block whose output size changed, and the final
token counter. -/
structure AliasWLResult where
  inputs : List (String × PtState)
  outputs : List (String × PtState)
  final_output : Option PtState
  counter : Nat

/-- Main loop of `AliasAnalysis.worklist_algorithm`: pop the first
worklist label, merge predecessor outs (the seed at the start label),
transfer, and re-enqueue successors only when the output map's size
changed. -/
def worklist_go (cfg : List (String × Nat)) (st : List BasicBlock)
    (starting_input : PtState) :
    Nat → List String → List (String × PtState) → List (String × PtState) →
    Option PtState → Nat → Except PyErr AliasWLResult
  | 0, _, _, _, _, _ => throw .fuel
  | fuel + 1, wl, inputs, outputs, finalOut, counter =>
    match wl with
    | [] => pure ⟨inputs, outputs, finalOut, counter⟩
    | label :: rest => do
      let idx ←
        match alist_find? cfg label with
        | none => throw (.keyError label)
        | some i => pure i
      let block ← store_get st idx
      let block_inputs :=
        if label = CFG.DEFAULT_START_LABEL ∧ !starting_input.isEmpty then [starting_input]
        else block.pred.map (fun p => (alist_find? outputs p).getD [])
      let merged := merge_fn block_inputs
      let inputs2 := alist_set inputs label merged
      let (block_outputs, counter2) ← transfer_fn block merged counter
      if block_outputs.length ≠ ((alist_find? outputs label).getD []).length then
        let outputs2 := alist_set outputs label block_outputs
        let wl2 := block.succ.foldl (fun w s => if s ∈ w then w else w ++ [s]) rest
        worklist_go cfg st starting_input fuel wl2 inputs2 outputs2 (some block_outputs) counter2
      else
        worklist_go cfg st starting_input fuel rest inputs2 outputs finalOut counter2

/-- `AliasAnalysis.worklist_algorithm`: initialize the maps to empty and
the worklist to all labels. -/
def worklist_algorithm (fuel : Nat) (cfg : List (String × Nat)) (st : List BasicBlock)
    (starting_input : PtState) : Except PyErr AliasWLResult :=
  let inputs := cfg.foldl (fun m kv => alist_set m kv.1 ([] : PtState)) []
  let outputs := cfg.foldl (fun m kv => alist_set m kv.1 ([] : PtState)) []
  worklist_go cfg st starting_input fuel (alist_keys cfg) inputs outputs none 0

/-- `AliasAnalysis.compute_alias_analysis`: var → set of may-aliasing
variables (plus the sentinel string when the var may point anywhere). -/
def compute_alias_analysis (state : PtState) : List (String × List String) :=
  state.foldl
    (fun acc kv =>
      let aliases := state.foldl
        (fun al kv2 =>
          if kv.1 ≠ kv2.1 ∧
              (!(pyset_inter kv.2 kv2.2).isEmpty ∨ MemLoc.all ∈ kv.2 ∨ MemLoc.all ∈ kv2.2) then
            pyset_add al kv2.1
          else al)
        []
      let aliases := if MemLoc.all ∈ kv.2 then pyset_add aliases ALL_MEM_LOCATIONS else aliases
      alist_set acc kv.1 aliases)
    []

/-- The seeded starting input of `AliasAnalysis.__init__`: every
used-before-defined variable points to `{ALL}`. -/
def starting_input_of (input_variables_dict : List (String × Bool)) : PtState :=
  input_variables_dict.foldl
    (fun m kv => if kv.2 then alist_set m kv.1 [MemLoc.all] else m) []

/-- `AliasAnalysis.__init__`: run the worklist and derive the alias map
from `final_output` (a `None` final output raises, as iterating `None`
does in Python). -/
def run (fuel : Nat) (c : CFGData) (input_variables_dict : List (String × Bool)) :
    Except PyErr (AliasWLResult × List (String × List String)) := do
  let wl ← worklist_algorithm fuel c.cfg c.store (starting_input_of input_variables_dict)
  match wl.final_output with
  | none => throw .typeError
  | some fo => pure (wl, compute_alias_analysis fo)

/-- Python `list.remove(x)`: delete the first element equal to `x`;
raise `ValueError` when absent. -/
def list_remove (l : List Instr) (x : Instr) : Except PyErr (List Instr) :=
  match l with
  | [] => throw .valueError
  | y :: rest =>
    if y = x then pure rest
    else do
      pure (y :: (← list_remove rest x))

/-- The `remove_variable_and_aliases` helper of
`AliasAnalysis.dead_store_elimination`; note that the alias set is looked
up for the current instruction's first argument, not for `variable`. -/
def remove_variable_and_aliases (alias_analysis : List (String × List String))
    (instr : Instr) (variable2 : String) (last_store : List (String × Nat)) :
    Except PyErr (List (String × Nat)) := do
  let arg0 ←
    match instr.args with
    | none => throw (.keyError "args")
    | some as2 =>
      match as2.head? with
      | none => throw .indexError
      | some a => pure a
  let aliases := (alist_find? alias_analysis arg0).getD []
  let ls := alist_erase last_store variable2
  let ls := aliases.foldl (fun m a => alist_erase m a) ls
  if ALL_MEM_LOCATIONS ∈ aliases then pure [] else pure ls

/-- The linear dead-store walk of `AliasAnalysis.dead_store_elimination`:
a `store` whose pointer already has a pending store removes the *current*
instruction from the output copy. -/
def dse_walk (alias_analysis : List (String × List String)) :
    List Instr → Nat → List (String × Nat) → List Instr → Except PyErr (List Instr)
  | [], _, _, out => pure out
  | instr :: rest, idx, last_store, out => do
    match instr.op with
    | none => dse_walk alias_analysis rest (idx + 1) last_store out
    | some op =>
      if op = "ptradd" then do
        let d ←
          match instr.dest with
          | none => throw (.keyError "dest")
          | some d => pure d
        if alist_mem last_store d then do
          let ls ← remove_variable_and_aliases alias_analysis instr d last_store
          dse_walk alias_analysis rest (idx + 1) ls out
        else
          dse_walk alias_analysis rest (idx + 1) last_store out
      else if op = "load" then do
        let arg0 ←
          match instr.args with
          | none => throw (.keyError "args")
          | some as2 =>
            match as2.head? with
            | none => throw .indexError
            | some a => pure a
        let ls ← remove_variable_and_aliases alias_analysis instr arg0 last_store
        dse_walk alias_analysis rest (idx + 1) ls out
      else if op = "store" then do
        let arg0 ←
          match instr.args with
          | none => throw (.keyError "args")
          | some as2 =>
            match as2.head? with
            | none => throw .indexError
            | some a => pure a
        if alist_mem last_store arg0 then do
          let out2 ← list_remove out instr
          dse_walk alias_analysis rest (idx + 1) last_store out2
        else
          dse_walk alias_analysis rest (idx + 1) (alist_set last_store arg0 idx) out
      else
        dse_walk alias_analysis rest (idx + 1) last_store out

/-- `AliasAnalysis.dead_store_elimination`: alias analysis, then the
linear walk over the cfg's instruction list. -/
def dead_store_elimination (fuel : Nat) (c : CFGData) : Except PyErr (List Instr) := do
  let du ← SSA.get_defs_uses_types_inputs c.cfg c.store
  let (_, alias_analysis) ← run fuel c du.input_variables
  let cfg_instructions := CFG.instructions_from_cfg c.cfg c.store
  dse_walk alias_analysis cfg_instructions 0 [] cfg_instructions

end AliasAnalysis

/-! Concrete IR instruction builders used by the example programs. -/

/-- A `const` instruction. -/
def mkConst (d ty : String) (v : PyVal) : Instr :=
  { op := some "const", dest := some d, type := some ty, value := some v }

/-- A `jmp` instruction. -/
def mkJmp (l : String) : Instr := { op := some "jmp", labels := some [l] }

/-- A bare label instruction. -/
def mkLabel (l : String) : Instr := { label := some l }

/-- A `br` instruction. -/
def mkBr (c l1 l2 : String) : Instr := { op := some "br", args := some [c], labels := some [l1, l2] }

/-- A `print` instruction. -/
def mkPrint (v : String) : Instr := { op := some "print", args := some [v] }

/-- A `ret` instruction. -/
def mkRet : Instr := { op := some "ret" }

/-- An `alloc` instruction. -/
def mkAlloc (d n : String) : Instr :=
  { op := some "alloc", dest := some d, type := some "ptr", args := some [n] }

/-- A `store` instruction. -/
def mkStore (p v : String) : Instr := { op := some "store", args := some [p, v] }

/-- A `load` instruction. -/
def mkLoad (d p : String) : Instr :=
  { op := some "load", dest := some d, type := some "int", args := some [p] }

/-- An `id` (copy) instruction. -/
def mkId (d a : String) : Instr :=
  { op := some "id", dest := some d, type := some "int", args := some [a] }

/-- A `div` instruction. -/
def mkDiv (d a b : String) : Instr :=
  { op := some "div", dest := some d, type := some "int", args := some [a, b] }

/-! Claim C1: dominator correctness on the three-block loop program. -/

/-- A program whose CFG is `start_cfg → a → b → a`: one unlabeled `jmp a`
block and two labeled blocks forming a cycle. -/
def P1 : List Instr :=
  [mkJmp "a", mkLabel "a", mkJmp "b", mkLabel "b", mkJmp "a"]

/-- The CFG built from `P1`. -/
def C1_cfg : Except PyErr CFGData :=
  CFG.init 32 (BasicBlock.create_blocks_from_function P1) false

/-! Claim C2: SSA uniqueness after `cfg_to_ssa` on a diamond program. -/

/-- A diamond program: `start` branches to `b` and `c`, both define `v`,
and `d` joins and prints `v`. -/
def P2 : List Instr :=
  [ mkConst "cond" "bool" (.bool true), mkBr "cond" "b" "c",
    mkLabel "b", mkConst "v" "int" (.int 1), mkJmp "d",
    mkLabel "c", mkConst "v" "int" (.int 2), mkJmp "d",
    mkLabel "d", mkPrint "v", mkRet ]

/-- The instruction list produced by SSA construction on `P2`. -/
def C2_ssa_result : Except PyErr (List Instr) := do
  let c ← CFG.init 32 (BasicBlock.create_blocks_from_function P2) false
  let st ← SSA.cfg_to_ssa 32 c
  pure (CFG.instructions_from_cfg c.cfg st)

/-! Claim C3: worklist stabilization, refuted on the alias client. -/

/-- A loop program whose loop block contains an `alloc`: the start block
jumps to `loop`, which allocates and branches back to itself or on to
`exit`. -/
def P3 : List Instr :=
  [ mkJmp "loop", mkLabel "loop", mkAlloc "p" "n", mkBr "c" "loop" "exit",
    mkLabel "exit", mkRet ]

/-- The CFG of `P3`. -/
def C3_cfg : Except PyErr CFGData :=
  CFG.init 64 (BasicBlock.create_blocks_from_function P3) false

/-- The alias worklist run on `P3`, seeded exactly as
`AliasAnalysis.__init__` seeds it. -/
def C3_run : Except PyErr AliasAnalysis.AliasWLResult := do
  let c ← C3_cfg
  let du ← SSA.get_defs_uses_types_inputs c.cfg c.store
  AliasAnalysis.worklist_algorithm 64 c.cfg c.store
    (AliasAnalysis.starting_input_of du.input_variables)

/-- The stored out-state of block `loop` after the run terminates, paired
with the transfer function re-applied (at the final counter) to the merge
of the predecessors' stored out-states — what a stabilized fixed point
would have to reproduce. -/
def C3_restabilize : Except PyErr (AliasAnalysis.PtState × AliasAnalysis.PtState) := do
  let c ← C3_cfg
  let wl ← C3_run
  let idx ←
    match alist_find? c.cfg "loop" with
    | none => throw (PyErr.keyError "loop")
    | some i => pure i
  let block ← store_get c.store idx
  let merged := AliasAnalysis.merge_fn
    (block.pred.map (fun p => (alist_find? wl.outputs p).getD []))
  let (recomputed, _) ← AliasAnalysis.transfer_fn block merged wl.counter
  pure ((alist_find? wl.outputs "loop").getD [], recomputed)

/-! Claim C4: the dead-store scenario removes the wrong store. -/

/-- The spec's dead-store scenario, rendered in the IR:
`p = alloc one; store p v1; store p v2; w = load p; print w`. -/
def P4 : List Instr :=
  [ mkConst "one" "int" (.int 1), mkAlloc "p" "one", mkStore "p" "v1",
    mkStore "p" "v2", mkLoad "w" "p", mkPrint "w" ]

/-- Dead-store elimination run on `P4`. -/
def C4_dse_result : Except PyErr (List Instr) := do
  let c ← CFG.init 64 (BasicBlock.create_blocks_from_function P4) false
  AliasAnalysis.dead_store_elimination 64 c

/-! Claim C5: successor wiring of `ret` and final fall-through blocks. -/

/-- A `ret` block followed by a labeled fall-through block that is last in
source order. -/
def P5 : List Instr := [mkRet, mkLabel "a", mkPrint "x"]

/-- The CFG of `P5`. -/
def C5_cfg : Except PyErr CFGData :=
  CFG.init 32 (BasicBlock.create_blocks_from_function P5) false

/-! Claim C6: LVN folding of `div` with constant operands. -/

/-- A block dividing constant 7 by constant 0. -/
def P6_zero : List Instr :=
  [ mkConst "a" "int" (.int 7), mkConst "b" "int" (.int 0), mkDiv "d" "a" "b", mkPrint "d" ]

/-- The same block with divisor 2. -/
def P6_two : List Instr :=
  [ mkConst "a" "int" (.int 7), mkConst "b" "int" (.int 2), mkDiv "d" "a" "b", mkPrint "d" ]

/-! Claim C7: one token per alloc site per analysis run. -/

/-- A loop program with a single `alloc` site inside the loop block. -/
def P7 : List Instr :=
  [ mkJmp "lp", mkLabel "lp", mkAlloc "q" "m", mkBr "cc" "lp" "done",
    mkLabel "done", mkRet ]

/-- The CFG of `P7`. -/
def C7_cfg : Except PyErr CFGData :=
  CFG.init 64 (BasicBlock.create_blocks_from_function P7) false

/-- The alias worklist run on `P7`. -/
def C7_run : Except PyErr AliasAnalysis.AliasWLResult := do
  let c ← C7_cfg
  let du ← SSA.get_defs_uses_types_inputs c.cfg c.store
  AliasAnalysis.worklist_algorithm 64 c.cfg c.store
    (AliasAnalysis.starting_input_of du.input_variables)

/-- The number of `alloc` instructions (sites) in a program. -/
def alloc_sites (instrs : List Instr) : Nat :=
  (instrs.filter (fun i => i.op = some "alloc")).length

/-- The token set of `q` after running the transfer function on the `lp`
block (with its fixed-point input) at a given counter value. -/
def C7_transfer_at (k : Nat) : Except PyErr (Option (List AliasAnalysis.MemLoc)) := do
  let c ← C7_cfg
  let wl ← C7_run
  let idx ←
    match alist_find? c.cfg "lp" with
    | none => throw (PyErr.keyError "lp")
    | some i => pure i
  let block ← store_get c.store idx
  let merged := AliasAnalysis.merge_fn
    (block.pred.map (fun p => (alist_find? wl.outputs p).getD []))
  let (s, _) ← AliasAnalysis.transfer_fn block merged k
  pure (alist_find? s "q")

/-! Claim C8: the local DCE variant. -/

/-- A block reassigning `a` before any use of its first value. -/
def P8 : List Instr :=
  [ mkConst "a" "int" (.int 1), mkConst "a" "int" (.int 2), mkPrint "a" ]

/-- The same block without a reassignment. -/
def P8_no_reassign : List Instr := [ mkConst "a" "int" (.int 1), mkPrint "a" ]

/-! Claim C9: what LICM hoists to a preheader. -/

/-- A program with two back edges sharing the header `h`: `t2 → h` and
`t → h`.  When the back edge `(t, h)` is processed, its loop body is
`{t, h, start_cfg}`, so `t2` — the other loop's tail — survives as the
"preheader".  Inside `t`, `a = id x` and `b2 = id x` are invariant
(`x` is defined in `t2`, outside this loop body), hence so is
`d = div a b2`; `b2` is kept in the loop by its use in `h`. -/
def P9 : List Instr :=
  [ mkJmp "h",
    mkLabel "h", mkPrint "b2", mkBr "c" "t" "t2",
    mkLabel "t2", mkConst "x" "int" (.int 5), mkJmp "h",
    mkLabel "t", mkId "a" "x", mkId "b2" "x", mkDiv "d" "a" "b2", mkPrint "d", mkJmp "h" ]

/-- LICM run on `P9`. -/
def C9_licm_result : Except PyErr (List Instr) := LICM.licm 64 P9

/-- The loop body computed for the back edge `(t, h)` of `P9`. -/
def C9_loop_nodes : Except PyErr (List String) := do
  let c ← CFG.init 64 (BasicBlock.create_blocks_from_function P9) false
  CFG.get_loop_information 64 (CFG.edges_of c.cfg c.store) c.back_edges ("t", "h")

/-- The def site of the divisor `b2` in `P9`, as `variable_use_def_blocks`
records it. -/
def C9_def_site_b2 : Except PyErr (Option (String × Nat)) := do
  let c ← CFG.init 64 (BasicBlock.create_blocks_from_function P9) false
  let (_, db) ← LICM.variable_use_def_blocks c.cfg c.store
  pure (alist_find? db "b2")

/-! Claim C10: unlabeled blocks are keyed by the synthetic start label. -/

/-- An unlabeled block (`x = const 1; print x`) following a `ret` block,
itself unlabeled: both are keyed `start_cfg`, and the later one wins. -/
def P10 : List Instr := [mkRet, mkConst "x" "int" (.int 1), mkPrint "x"]

/-- The CFG of `P10`. -/
def C10_cfg : Except PyErr CFGData :=
  CFG.init 32 (BasicBlock.create_blocks_from_function P10) false

/-! Theorems settling the claims. -/

/-- Updating a key of an association list makes lookup of that key return
the new value. -/
theorem alist_find?_alist_set_self {κ α : Type} [DecidableEq κ]
    (m : List (κ × α)) (k : κ) (v : α) : alist_find? (alist_set m k v) k = some v := by
  induction m with
  | nil => simp [alist_set, alist_find?]
  | cons kv rest ih =>
    by_cases h : kv.1 = k
    · simp [alist_set, alist_find?, h]
    · cases kv
      simp_all [alist_set, alist_find?, h]

/-- Claim C1 (code bug): on the loop program `P1`, `compute_dominators`
returns `dom(a) = {a}` even though `a` is reachable from the start label,
so `start ∈ dom(v)` fails for a reachable `v` (the two benign conjuncts
`start ∈ dom(start)` and `v ∈ dom(v)` do hold in this map).  The code
initializes every dominator set to ∅ and intersects, which converges to
the least fixed point instead of the dominator sets. -/
theorem C1_dominators_lose_start :
    C1_cfg.map (fun c => c.dominators) =
      .ok [("start_cfg", ["start_cfg"]), ("a", ["a"]), ("b", ["a", "b"])] ∧
    C1_cfg.bind (fun c => CFG.reachable 32 c.cfg c.store CFG.DEFAULT_START_LABEL "a") =
      .ok true ∧
    C1_cfg.map (fun c => decide ("start_cfg" ∈ (alist_find? c.dominators "a").getD [])) =
      .ok false :=
  ⟨by rfl, by rfl, by rfl⟩

/-- Claim C2 (code bug): renaming names a definition `v.k` with `k` the
per-variable stack depth and restores the stacks when leaving a
dominator-tree subtree, so the sibling blocks `b` and `c` both mint `v.0`
(and the phi at `d` mints `v.0` a third time); `check_ssa` rejects the
result, refuting "check_ssa returns true after cfg_to_ssa". -/
theorem C2_ssa_not_unique :
    C2_ssa_result =
      .ok [ { op := some "const", dest := some "cond.0", type := some "bool",
              value := some (.bool true) },
            { op := some "br", args := some ["cond.0"], labels := some ["b", "c"] },
            mkLabel "b",
            { op := some "const", dest := some "v.0", type := some "int",
              value := some (.int 1) },
            mkJmp "d",
            mkLabel "c",
            { op := some "const", dest := some "v.0", type := some "int",
              value := some (.int 2) },
            mkJmp "d",
            { op := some "phi", dest := some "v.0", type := some "int",
              labels := some ["b", "c"], args := some ["v.0", "v.0"] },
            mkLabel "d", mkPrint "v.0", mkRet ] ∧
    C2_ssa_result.map SSA.check_ssa = .ok false :=
  ⟨by rfl, by rfl⟩

/-- Claim C3 (code bug): the worklist terminates on `P3` with
`out(loop) = {n ↦ {ALL}, c ↦ {ALL}, p ↦ {1}}`, but re-applying the
transfer to the merged predecessor outs yields `p ↦ {3}` — the state has
not stabilized.  The engine compares only the *sizes* of the out maps
(`len(block_outputs) != len(outputs[label])`), so the second processing of
`loop` (which changed `p`'s points-to set but not the number of keys) did
not update `out(loop)` and did not re-enqueue its successors. -/
theorem C3_worklist_not_stabilized :
    C3_restabilize =
      .ok ([("n", [.all]), ("c", [.all]), ("p", [.num 1])],
           [("n", [.all]), ("c", [.all]), ("p", [.num 3])]) ∧
    ([("n", [AliasAnalysis.MemLoc.all]), ("c", [.all]), ("p", [.num 1])] :
        AliasAnalysis.PtState) ≠
      [("n", [.all]), ("c", [.all]), ("p", [.num 3])] :=
  ⟨by rfl, by decide⟩

/-- Claim C4 (code bug): on the scenario input the pass removes the
*second* store (`store p v2`) and keeps the first (`store p v1`): on
seeing a store whose pointer already has a pending store it executes
`cfg_instructions_copy.remove(instr)` on the *current* instruction
instead of the recorded earlier one, so the loaded `w` is the value
written by `store p v1`, not `store p v2`. -/
theorem C4_wrong_store_removed :
    C4_dse_result =
      .ok [ mkConst "one" "int" (.int 1), mkAlloc "p" "one", mkStore "p" "v1",
            mkLoad "w" "p", mkPrint "w" ] ∧
    (mkStore "p" "v1" ≠ mkStore "p" "v2") :=
  ⟨by rfl, by decide⟩

/-- Claim C5 (code bug): in `build_cfg` a `ret` block falls into the
fall-through branch (the dispatch only tests `jmp` and `br`), so the
`ret` block of `P5` gets the next block `a` as its successor instead of
∅; and the last block in source order gets *no* successor — the synthetic
`end_cfg` label is never attached to it (it would only be consulted when
the next block is missing from the cfg map). -/
theorem C5_ret_block_gets_successor :
    (BasicBlock.create_blocks_from_function P5).map
        (fun b => b.instructions.getLast?.bind (fun i => i.op)) =
      [some "ret", some "print"] ∧
    C5_cfg.map (fun c => c.store.map (fun b => b.succ)) = .ok [["a"], []] ∧
    C5_cfg.map (fun c => c.store.map (fun b => decide (CFG.DEFAULT_END_LABEL ∈ b.succ))) =
      .ok [false, false] :=
  ⟨by rfl, by rfl, by rfl⟩

/-- Claim C6 (code bug): `compute` folds `div` with the unguarded Python
lambda `x / y`, so a zero constant divisor raises `ZeroDivisionError`
instead of keeping the instruction; and a nonzero divisor folds with true
division to a float (`7 / 2 = 3.5`), not an int, even though the emitted
constant is tagged `type int`. -/
theorem C6_div_folding_bug :
    LocalValueNumbering.process_block P6_zero = .error .zeroDivisionError ∧
    LocalValueNumbering.process_block P6_two =
      .ok [ mkConst "a" "int" (.int 7), mkConst "b" "int" (.int 2),
            { op := some "const", dest := some "d", type := some "int",
              value := some (.float ⟨7, 2⟩) },
            mkPrint "d" ] ∧
    (∀ n : Int, PyVal.float ⟨7, 2⟩ ≠ PyVal.int n) :=
  ⟨by rfl, by rfl, by intro n h; exact PyVal.noConfusion h⟩

/-- Claim C7 counterexample: `P7` has exactly one alloc site, yet one run
of the analysis increments the token counter to 2 (the loop block is
processed twice and the site is minted a fresh token each time), and the
transfer function gives the same site the token `k + 1` for whatever the
current counter `k` is — `{1}` on the first processing, `{2}` on the
second — not the same token. -/
theorem C7_token_per_visit :
    alloc_sites P7 = 1 ∧
    C7_run.map (fun wl => wl.counter) = .ok 2 ∧
    C7_transfer_at 0 = .ok (some [.num 1]) ∧
    C7_transfer_at 1 = .ok (some [.num 2]) ∧
    (some [AliasAnalysis.MemLoc.num 1] ≠ some [AliasAnalysis.MemLoc.num 2]) :=
  ⟨by rfl, by rfl, by rfl, by rfl, by decide⟩

/-- Claim C7 as amended: executing `x = alloc n` in the transfer function
mints the fresh token `counter + 1` (a new one on every execution, so a
re-processed block gets a different token for the same site) and *adds* it
to the input state's set for `x`; the result is the singleton
`{counter + 1}` exactly when `x` is untracked in the input, and the union
`state[x] ∪ {counter + 1}` otherwise. -/
theorem C7_alloc_adds_fresh_token (s : AliasAnalysis.PtState) (k : Nat) (d n : String) :
    AliasAnalysis.alias_step s k (mkAlloc d n) =
      .ok (AliasAnalysis.add_to_set d [.num (k + 1)] s, k + 1) ∧
    (alist_find? s d = none →
      alist_find? (AliasAnalysis.add_to_set d [.num (k + 1)] s) d =
        some [.num (k + 1)]) ∧
    (∀ cur, alist_find? s d = some cur →
      alist_find? (AliasAnalysis.add_to_set d [.num (k + 1)] s) d =
        some (pyset_add cur (.num (k + 1)))) := by
  refine ⟨rfl, ?_, ?_⟩
  · intro h
    simp [AliasAnalysis.add_to_set, h, pyset_add, alist_find?_alist_set_self]
  · intro cur h
    simp [AliasAnalysis.add_to_set, h, alist_find?_alist_set_self]

/-- Witness for the amended C7 theorem at concrete inputs: an untracked
destination gets the singleton `{1}`, and a tracked one gets its old set
plus the fresh token. -/
theorem C7_alloc_adds_fresh_token_witness :
    AliasAnalysis.alias_step [] 0 (mkAlloc "x" "n") =
      .ok (AliasAnalysis.add_to_set "x" [.num 1] [], 1) ∧
    alist_find? (AliasAnalysis.add_to_set "x" [.num 1] ([] : AliasAnalysis.PtState)) "x" =
      some [.num 1] ∧
    alist_find?
        (AliasAnalysis.add_to_set "x" [.num 1] ([("x", [AliasAnalysis.MemLoc.all])] : AliasAnalysis.PtState))
        "x" =
      some (pyset_add [AliasAnalysis.MemLoc.all] (.num 1)) :=
  ⟨(C7_alloc_adds_fresh_token [] 0 "x" "n").1,
   (C7_alloc_adds_fresh_token [] 0 "x" "n").2.1 rfl,
   (C7_alloc_adds_fresh_token [("x", [AliasAnalysis.MemLoc.all])] 0 "x" "n").2.2
     [AliasAnalysis.MemLoc.all] rfl⟩

/-- Claim C8 (code bug): the removal path of `local_dead_code` calls
`block.pop(...)` — `BasicBlock` has no `pop` method — so the very input
the pass exists for raises `AttributeError` instead of removing the prior
definition; inputs with nothing to remove pass through unchanged. -/
theorem C8_local_dce_crashes :
    DCE.local_dead_code P8 = .error (.attributeError "pop") ∧
    DCE.local_dead_code P8_no_reassign = .ok P8_no_reassign :=
  ⟨by rfl, by rfl⟩

/-- Claim C9 (code bug): LICM hoists `d = div a b2` into block `t2`
although the divisor `b2` is defined inside the loop body (block `t`,
which stays in the output with `b2 = id x` still in it, before the loop
runs).  `instruction_can_error` compares the divisor *name* with the
integer 0 (`instr['args'][1] == 0`), which is always false in Python, so
no `div` is ever blocked from hoisting. -/
theorem C9_hoists_div_with_loop_defined_divisor :
    C9_licm_result =
      .ok [ mkJmp "h",
            mkLabel "h", mkPrint "b2", mkBr "c" "t" "t2",
            mkLabel "t2", mkConst "x" "int" (.int 5), mkId "a" "x", mkDiv "d" "a" "b2",
            mkJmp "h",
            mkLabel "t", mkId "b2" "x", mkPrint "d", mkJmp "h" ] ∧
    C9_loop_nodes = .ok ["t", "h", "start_cfg"] ∧
    ("t2" ∉ (["t", "h", "start_cfg"] : List String)) ∧
    C9_def_site_b2 = .ok (some ("t", 2)) ∧
    LICM.instruction_can_error (mkDiv "d" "a" "b2") = .ok false :=
  ⟨by rfl, by rfl, by decide, by rfl, by rfl⟩

/-- Claim C10 (confirmed): any block whose first instruction carries no
label is keyed `start_cfg` by `build_cfg`; keying is dictionary
assignment, so the last block filed under a key is the one the map
retains; consequently on `P10` — two unlabeled blocks — the cfg has the
single key `start_cfg`, and the first block's `ret` is absent from the
CFG's instruction list output. -/
theorem C10_unlabeled_blocks_keyed_start :
    (∀ (b : BasicBlock) (i : Instr) (rest : List Instr),
        b.instructions = i :: rest → i.label = none →
        CFG.block_key b = .ok CFG.DEFAULT_START_LABEL) ∧
    (∀ (m : List (String × Nat)) (k : String) (v : Nat),
        alist_find? (alist_set m k v) k = some v) ∧
    C10_cfg.map (fun c => alist_keys c.cfg) = .ok [CFG.DEFAULT_START_LABEL] ∧
    C10_cfg.map (fun c => CFG.instructions_from_cfg c.cfg c.store) =
      .ok [mkConst "x" "int" (.int 1), mkPrint "x"] ∧
    C10_cfg.map (fun c => decide (mkRet ∈ CFG.instructions_from_cfg c.cfg c.store)) =
      .ok false := by
  refine ⟨?_, ?_, by rfl, by rfl, by rfl⟩
  · intro b i rest h1 h2
    simp [CFG.block_key, h1, h2]
    rfl
  · intro m k v
    exact alist_find?_alist_set_self m k v

/-- Witness for C10 at concrete inputs: the bare `ret` block is keyed
`start_cfg`, and a map assignment is retrievable. -/
theorem C10_unlabeled_blocks_keyed_start_witness :
    CFG.block_key { instructions := [mkRet] } = .ok CFG.DEFAULT_START_LABEL ∧
    alist_find? (alist_set ([] : List (String × Nat)) "start_cfg" 0) "start_cfg" = some 0 :=
  ⟨C10_unlabeled_blocks_keyed_start.1 { instructions := [mkRet] } mkRet [] rfl rfl,
   C10_unlabeled_blocks_keyed_start.2.1 [] "start_cfg" 0⟩
